import Mathlib

/-!
Verification development for the version-control integration core of the
synectic-shift repository: shallow embeddings of the git status engine
(`processStatusCode`, `worktreeStatus`, `fileStatus`, `getStatus`), the
config store (`getConfig`, `setConfig`), repository operations (`clone`,
`checkout` defaults, `merge`) and the worktree manager's `remove`
transition, together with theorems settling the specification's claims
about them.

Conventions of the embedding: a JavaScript value that may be `undefined`
or `null` is an `Option`; JavaScript truthiness on a possibly-undefined
string (`if (value)`) is `jsTruthy`, which is `false` for `undefined`,
`null` and the empty string; asynchronous filesystem collaborators that
are not part of the source tree (isomorphic-git plumbing, `fs` reads) are
passed in as explicit parameters so every function stays executable.
-/

/-- Normalized git status classification, from `store/types.ts` (`GitStatus`)
extended with the `unmerged` member used by the status engine in the newer
source tree. Constructors prefixed with `star` stand for the `*`-prefixed
unstaged variants (`*modified`, `*added`, `*deleted`). -/
inductive GitStatus where
  | modified
  | ignored
  | unmodified
  | starModified
  | starDeleted
  | starAdded
  | absent
  | deleted
  | added
  | unmerged
  deriving DecidableEq, Repr

/-- Aggregate branch status from `store/types.ts` (`BranchStatus`), as used by
`worktreeStatus` and `fileStatus`. -/
inductive BranchStatus where
  | clean
  | uncommitted
  | unmerged
  deriving DecidableEq, Repr

/-- JavaScript truthiness of a possibly-undefined/null string: `undefined`,
`null` and the empty string are falsy, every other string is truthy. -/
def jsTruthy (v : Option String) : Bool :=
  match v with
  | none => false
  | some s => s != ""

/-- Character class `[ MTD]` used by the regular expressions inside
`processStatusCode` (git-status, src/unnamed/part_004). -/
def ySet : List Char := [' ', 'M', 'T', 'D']

/-- Semantics of the JavaScript regex test `/c(?=[ MTD])/.test(s)`: some
occurrence of the character `c` is immediately followed by a character of
the class `[ MTD]`. -/
def testCharThenY (c : Char) : List Char → Bool
  | a :: b :: rest => (a == c && ySet.contains b) || testCharThenY c (b :: rest)
  | _ => false

/-- Semantics of the JavaScript regex test `/(?=[ MTD])c/.test(s)`: at some
position the lookahead sees a character of the class `[ MTD]` and the
character at that same position equals `c`. Note the lookahead and the
literal inspect the same character, so the test succeeds exactly when `c`
itself lies in `[ MTD]` and occurs in the string. -/
def testYHereChar (c : Char) : List Char → Bool
  | a :: rest => (ySet.contains a && a == c) || testYHereChar c rest
  | [] => false

/-- Semantics of the JavaScript regex test `/(DD|AA|.U|U.)/.test(s)`; the
dot does not match a newline since the `s` flag is absent. -/
def testConflict : List Char → Bool
  | a :: b :: rest =>
      (a == 'D' && b == 'D') || (a == 'A' && b == 'A') ||
      (a != '\n' && b == 'U') || (a == 'U' && b != '\n') ||
      testConflict (b :: rest)
  | _ => false

/-- Core of `processStatusCode` (git-status, src/unnamed/part_004, lines
131-145) acting on the character list of the status-code string. The second
component records whether the diagnostic branch (`console.error`) was
taken. The guard chain mirrors the source: the initial falsy check covers
both `undefined` and the empty string, then string equality against `!!`
and `??`, then the regex tests in source order. -/
def processStatusCodeList (cs : List Char) : GitStatus × Bool :=
  if cs == [] then (GitStatus.unmodified, false)
  else if cs == ['!', '!'] then (GitStatus.ignored, false)
  else if cs == ['?', '?'] then (GitStatus.absent, false)
  else if testConflict cs then (GitStatus.unmerged, false)
  else if testCharThenY 'M' cs then (GitStatus.modified, false)
  else if testYHereChar 'M' cs then (GitStatus.starModified, false)
  else if testCharThenY 'A' cs then (GitStatus.added, false)
  else if testYHereChar 'A' cs then (GitStatus.starAdded, false)
  else if testCharThenY 'D' cs then (GitStatus.deleted, false)
  else if testYHereChar 'D' cs then (GitStatus.starDeleted, false)
  else (GitStatus.unmodified, true)

/-- Shallow embedding of `processStatusCode` (git-status,
src/unnamed/part_004, lines 131-145). Takes the possibly-undefined
two-character porcelain code; returns the mapped `GitStatus` and whether
the unrecognized-code diagnostic was produced. -/
def processStatusCode (statusCode : Option String) : GitStatus × Bool :=
  match statusCode with
  | none => (GitStatus.unmodified, false)
  | some code => processStatusCodeList code.data

/-- Status-code table of spec section 4.3, written from the spec's words for
comparison against `processStatusCode`: the precedence rows ignored,
absent, unmerged, modified (`M` in X with Y in `[ MTD]`), `*modified` (`M`
in Y with X in `[ MTD]`), added (`A` in X with Y in `[ MTD]`), `*added`
(`A` in Y), deleted (`D` in X), `*deleted` (`D` in Y), and unmodified with
a diagnostic for every code outside the table. -/
def specTable43 (x y : Char) : GitStatus × Bool :=
  if x == '!' && y == '!' then (GitStatus.ignored, false)
  else if x == '?' && y == '?' then (GitStatus.absent, false)
  else if (x == 'D' && y == 'D') || (x == 'A' && y == 'A') || x == 'U' || y == 'U' then
    (GitStatus.unmerged, false)
  else if x == 'M' && ySet.contains y then (GitStatus.modified, false)
  else if y == 'M' && ySet.contains x then (GitStatus.starModified, false)
  else if x == 'A' && ySet.contains y then (GitStatus.added, false)
  else if y == 'A' then (GitStatus.starAdded, false)
  else if x == 'D' then (GitStatus.deleted, false)
  else if y == 'D' then (GitStatus.starDeleted, false)
  else (GitStatus.unmodified, true)

/-- Mapping that `processStatusCode` actually computes on a two-character
code, written positionally: after the ignored/absent/unmerged rows, `M` in
X with Y in `[ MTD]` is modified; any remaining code containing `M` is
`*modified`; `A` in X with Y in `[ MTD]` is added; the `*added` branch is
unreachable because its regex inspects one character that would have to be
both `A` and in `[ MTD]`; `D` in X with Y in `[ MTD]` is deleted; any
remaining code containing `D` is `*deleted`; everything else is unmodified
with a diagnostic. -/
def actualStatusTable (x y : Char) : GitStatus × Bool :=
  if x == '!' && y == '!' then (GitStatus.ignored, false)
  else if x == '?' && y == '?' then (GitStatus.absent, false)
  else if (x == 'D' && y == 'D') || (x == 'A' && y == 'A') ||
      (x != '\n' && y == 'U') || (x == 'U' && y != '\n') then
    (GitStatus.unmerged, false)
  else if x == 'M' && ySet.contains y then (GitStatus.modified, false)
  else if x == 'M' || y == 'M' then (GitStatus.starModified, false)
  else if x == 'A' && ySet.contains y then (GitStatus.added, false)
  else if x == 'D' && ySet.contains y then (GitStatus.deleted, false)
  else if x == 'D' || y == 'D' then (GitStatus.starDeleted, false)
  else (GitStatus.unmodified, true)

/-- Optional arguments of `checkout` (git-porcelain.ts lines 140-159 and
old-git/git-porcelain.ts lines 163-211) relevant to the `noUpdateHead`
default: the `ref` argument and an explicitly supplied `noUpdateHead`. -/
structure CheckoutArgs where
  ref : Option String
  noUpdateHead : Option Bool
  deriving DecidableEq, Repr

/-- JavaScript binding of `ref` after the destructuring default
`ref = 'HEAD'` in `checkout`: an omitted or explicitly-undefined `ref`
argument is replaced by the defined string `HEAD` before any later default
expression is evaluated. -/
def checkoutRefBinding (ref : Option String) : Option String :=
  match ref with
  | none => some "HEAD"
  | some r => some r

/-- Effective `noUpdateHead` parameter of `checkout`: the declared default
is `ref === undefined`, but destructuring defaults evaluate left to right,
so the comparison sees the already-defaulted `ref` binding produced by
`checkoutRefBinding`. -/
def checkoutNoUpdateHead (args : CheckoutArgs) : Bool :=
  match args.noUpdateHead with
  | some b => b
  | none => (checkoutRefBinding args.ref).isNone

/-- Default for `noUpdateHead` stated by claim C4 and by the doc comment of
`checkout` itself (false when `ref` is provided, true when `ref` is
omitted), written for comparison with `checkoutNoUpdateHead`. -/
def checkoutNoUpdateHeadDoc (args : CheckoutArgs) : Bool :=
  match args.noUpdateHead with
  | some b => b
  | none => args.ref.isNone

/-- Row of the status matrix per the contract in spec section 4.3:
filepath, HEAD status, working-directory status, stage status (the
producing plumbing, git-plumbing.ts, is not part of this source tree, so
the row layout is taken from the spec's statusMatrix contract; in the
source the fields are accessed positionally as row[0] .. row[3]). -/
structure MatrixRow where
  filepath : String
  headStatus : Nat
  workdirStatus : Nat
  stageStatus : Nat
  deriving DecidableEq, Repr

/-- Shallow embedding of `getStatus` (git-porcelain.ts lines 302-312). The
awaited collaborators are parameters: `isDir` is `io.isDirectory(filepath)`,
`statuses` is the result of the externally provided `statusMatrix` (which
is `undefined` when the filepath is not under version control), and
`entry` is the result of `matrixEntry` for the non-directory case. The
directory branch filters rows whose component at index 1 (HEAD status)
differs from the component at index 2 (workdir status), keeps the
filenames, and collapses to modified when any remain, else unmodified;
an undefined matrix is handled by substituting the empty list. -/
def getStatus (isDir : Bool) (statuses : Option (List MatrixRow))
    (entry : Option GitStatus) : Option GitStatus :=
  if isDir then
    let changed : List String :=
      match statuses with
      | some rows =>
          (rows.filter (fun row => row.headStatus != row.workdirStatus)).map
            (fun row => row.filepath)
      | none => []
    if changed.length > 0 then some GitStatus.modified else some GitStatus.unmodified
  else entry

/-- Claim C5 exactly as stated, for refutation: a filepath not under
version control yields undefined, and a versioned directory collapses on
HEAD-status versus stage-status. -/
def c5ClaimProp : Prop :=
  (∀ e, getStatus true none e = none) ∧
  (∀ (rows : List MatrixRow) (e : Option GitStatus),
    getStatus true (some rows) e =
      some (if rows.any (fun r => r.headStatus != r.stageStatus) then GitStatus.modified
            else GitStatus.unmodified))

/-- Scope of a git-config entry, from the `GitConfig` type of
git-porcelain.ts (`local`, `global`, `none`). -/
inductive ConfigScope where
  | scopeLocal
  | scopeGlobal
  | scopeNone
  deriving DecidableEq, Repr

/-- Result type of `getConfig` (git-porcelain.ts line 15): either only a
scope of `none`, or the value together with the scope in which it was
found (the optional `origin` field is tied to `showOrigin`, which claim C6
does not involve, and is omitted). -/
inductive GitConfig where
  | noneFound
  | found (scope : ConfigScope) (value : String)
  deriving DecidableEq, Repr

/-- Lookup of a dot-notation key in a parsed config file, modelling
`dotProp.has(config, key) ? dotProp.get(config, key) : null` over the
key-value entries produced by `parse` plus `parse.expandKeys`. -/
def lookupKey (file : List (String × String)) (key : String) : Option String :=
  (file.find? (fun e => e.1 == key)).map (fun e => e.2)

/-- The inner `readConfigValue` helper of `getConfig` (git-porcelain.ts
lines 369-375): `null` when the config path is null or the file cannot be
parsed (both folded into a `none` file argument), otherwise the dot-prop
lookup. -/
def readConfigValue (file : Option (List (String × String))) (key : String) : Option String :=
  match file with
  | none => none
  | some f => lookupKey f key

/-- Shallow embedding of `getConfig` (git-porcelain.ts lines 357-384,
old-git lines 527-554). `localFile` and `globalFile` stand for the parse
results of the resolved local and global config files (`none` when the
path does not resolve or parsing fails). The guards `if (localValue)` and
`if (globalValue)` are JavaScript truthiness tests, embedded by
`jsTruthy`. -/
def getConfig (localEnabled globalEnabled : Bool)
    (localFile globalFile : Option (List (String × String))) (keyPath : String) : GitConfig :=
  let localValue := if localEnabled then readConfigValue localFile keyPath else none
  let globalValue := if globalEnabled then readConfigValue globalFile keyPath else none
  if jsTruthy localValue then GitConfig.found ConfigScope.scopeLocal (localValue.getD "")
  else if jsTruthy globalValue then GitConfig.found ConfigScope.scopeGlobal (globalValue.getD "")
  else GitConfig.noneFound

/-- Claim C6 exactly as stated, for refutation: whenever the keyPath is
found in the local config file (both searches enabled), the result has
scope local with the local value. -/
def c6ClaimProp : Prop :=
  ∀ (lf gf : List (String × String)) (key v : String),
    lookupKey lf key = some v →
    getConfig true true (some lf) (some gf) key = GitConfig.found ConfigScope.scopeLocal v

/-- Overwrite-or-append update of a key in a parsed config file, modelling
`dotProp.set(configFile, keyPath, value)` (object keys are unique, so the
first matching entry is replaced). -/
def setKey : List (String × String) → String → String → List (String × String)
  | [], k, v => [(k, v)]
  | (k', v') :: rest, k, v =>
      if k' == k then (k, v) :: rest else (k', v') :: setKey rest k v

/-- Removal of a key from a parsed config file, modelling
`dotProp.delete(configFile, keyPath)`. -/
def deleteKey (file : List (String × String)) (key : String) : List (String × String) :=
  file.filter (fun e => !(e.1 == key))

/-- Serialization of the updated config back to INI text, modelling
`ini.stringify(configFile, ...)` as one `key = value` line per entry. -/
def serializeIni (file : List (String × String)) : String :=
  String.join (file.map (fun e => e.1 ++ " = " ++ e.2 ++ "\n"))

/-- Config path resolution of `setConfig` (git-porcelain.ts line 406): the
ternary `(scope == 'local' && root) ? <root>/.git/config :
getGitConfigPath('global')` — note that when the scope is local but the
worktree root is not resolvable, the expression falls through to the
global config path rather than failing. -/
def resolveConfigPath (scope : ConfigScope) (root globalPath : Option String) : Option String :=
  if scope == ConfigScope.scopeLocal && jsTruthy root then
    some ((root.getD "") ++ "/.git/config")
  else globalPath

/-- Config file path belonging to the requested scope as claim C7 reads
it: the local root-derived path for local scope (absent when the root
cannot be resolved), the global path for global scope. -/
def requestedScopePath (scope : ConfigScope) (root globalPath : Option String) : Option String :=
  match scope with
  | ConfigScope.scopeLocal => root.map (fun r => r ++ "/.git/config")
  | _ => globalPath

/-- Shallow embedding of `setConfig` (git-porcelain.ts lines 398-417,
old-git lines 570-589). `root` is the worktree-to-main-repo translation
result, `globalPath` the result of `getGitConfigPath('global')`, and
`fileAt` the parse of the config file at a path (`none` when the file is
missing or unparsable). Deleting happens when `value` is `undefined`
(`none`); the updated file is serialized, written back, and returned. -/
def setConfig (scope : ConfigScope) (root globalPath : Option String)
    (fileAt : String → Option (List (String × String)))
    (keyPath : String) (value : Option String) : Option String :=
  let configPath := resolveConfigPath scope root globalPath
  if !(jsTruthy configPath) then none
  else
    match fileAt (configPath.getD "") with
    | none => none
    | some configFile =>
        let updated :=
          match value with
          | none => deleteKey configFile keyPath
          | some v => setKey configFile keyPath v
        some (serializeIni updated)

/-- Claim C7's null condition exactly as stated, for refutation: the
result is null whenever the config file path for the requested scope
cannot be resolved. -/
def c7ClaimProp : Prop :=
  ∀ (scope : ConfigScope) (root globalPath : Option String)
    (fileAt : String → Option (List (String × String))) (key : String) (value : Option String),
    requestedScopePath scope root globalPath = none →
    setConfig scope root globalPath fileAt key value = none

/-- Outcome of a `clone` invocation (git-porcelain.ts lines 99-124): the
local-only path copies the source working directory (excluding paths that
contain node_modules) and then either checks out a different target branch
in the copy or leaves it as copied; every other invocation delegates to
the network clone against the remote URL. -/
inductive CloneAction where
  | copyOnly
  | copyThenCheckout (tb : String)
  | networkClone
  deriving DecidableEq, Repr

/-- The `existingBranch` binding of `clone` (git-porcelain.ts line 111):
the source's current branch when the source root is a git repository,
undefined otherwise. -/
def cloneExistingBranch (isRepo : Bool) (current : Option String) : Option String :=
  if isRepo then current else none

/-- The `targetBranch` binding of `clone` (git-porcelain.ts line 112): the
explicit `ref` when truthy, otherwise the existing branch. -/
def cloneTargetBranch (isRepo : Bool) (current ref : Option String) : Option String :=
  if jsTruthy ref then ref else cloneExistingBranch isRepo current

/-- Shallow embedding of the branching structure of `clone`
(git-porcelain.ts lines 99-124): `isRepo` is `isGitRepo(repo.root)`,
`current` the current branch of the source, `remote` the repository
record's remote branch-name list. When the target branch is truthy and
not among the remote branches the working directory is copied and the
target branch checked out exactly when it differs from the existing
branch; otherwise the operation is the network clone. -/
def clone (isRepo : Bool) (current ref : Option String) (remote : List String) : CloneAction :=
  let existingBranch := cloneExistingBranch isRepo current
  let targetBranch := cloneTargetBranch isRepo current ref
  if jsTruthy targetBranch && !(remote.contains (targetBranch.getD "")) then
    if targetBranch ≠ existingBranch then CloneAction.copyThenCheckout (targetBranch.getD "")
    else CloneAction.copyOnly
  else CloneAction.networkClone

/-- Output record of `worktreeStatus` (git-status, src/unnamed/part_004,
lines 9-15): current ref, queried root, aggregate branch status, bare
flag, and the changed entries with their per-path status. -/
structure StatusOutput where
  ref : String
  root : String
  status : BranchStatus
  bare : Bool
  entries : List (String × GitStatus)
  deriving DecidableEq, Repr

/-- Aggregate branch status derivation inside `worktreeStatus`
(src/unnamed/part_004, line 51): clean when there are no entries, unmerged
when some entry is unmerged, uncommitted otherwise. -/
def worktreeStatusAggregate (entries : List (String × GitStatus)) : BranchStatus :=
  if entries.length == 0 then BranchStatus.clean
  else
    match entries.find? (fun e => e.2 == GitStatus.unmerged) with
    | some _ => BranchStatus.unmerged
    | none => BranchStatus.uncommitted

/-- Shallow embedding of `fileStatus` (git-status, src/unnamed/part_004,
lines 71-98). The awaited collaborators are parameters: `root` is the
`getRoot` result, `branchStatus` the `worktreeStatus` result, `isDir` the
`isDirectory` check, `atRoot` the `isEqualPaths(root, filepath)` check,
`ignoresRel` the ignore-rule match of the relative path, and `relPath` the
`relative(root, filepath)` string used for the entry lookup. -/
def fileStatus (root : Option String) (branchStatus : Option StatusOutput)
    (isDir atRoot ignoresRel : Bool) (relPath : String) : Option GitStatus :=
  match root with
  | none => none
  | some _ =>
    match branchStatus with
    | none => none
    | some bs =>
      if isDir then
        let isIgnored := if atRoot then false else ignoresRel
        if isIgnored then some GitStatus.ignored
        else
          some (match bs.status with
            | BranchStatus.clean => GitStatus.unmodified
            | BranchStatus.uncommitted => GitStatus.modified
            | BranchStatus.unmerged => GitStatus.unmerged)
      else
        some (((bs.entries.find? (fun e => e.1 == relPath)).map (fun e => e.2)).getD
          GitStatus.unmodified)

/-- Arguments that `merge` (git-porcelain.ts lines 273-292, old-git lines
369-388) passes to the underlying isomorphic-git merge call: base and
compare branches as ours/theirs, the dryRun flag unchanged, and the author
identity with placeholders substituted for falsy config values. -/
structure MergeCall where
  ours : String
  theirs : String
  dryRun : Bool
  authorName : String
  authorEmail : String
  deriving DecidableEq, Repr

/-- The underlying merge invocation built by `merge`: `nameValue` and
`emailValue` are the git-config lookups of user.name and user.email. -/
def mergeUnderlyingCall (nameValue emailValue : Option String)
    (base compare : String) (dryRun : Bool) : MergeCall :=
  { ours := base
    theirs := compare
    dryRun := dryRun
    authorName := if jsTruthy nameValue then nameValue.getD "" else "Mr. Test"
    authorEmail := if jsTruthy emailValue then emailValue.getD "" else "mrtest@example.com" }

/-- The `missing` list of `merge` (git-porcelain.ts line 278): the config
key paths whose value is falsy or empty, in user.name, user.email order. -/
def mergeMissing (nameValue emailValue : Option String) : List String :=
  (([("user.name", nameValue), ("user.email", emailValue)].filter
      (fun c => !(jsTruthy c.2))).map (fun c => c.1))

/-- The `missingConfigs` field attached to the merge result via
`removeUndefinedProperties` (git-porcelain.ts lines 290-291): present
exactly when the missing list is non-empty. -/
def mergeMissingConfigs (nameValue emailValue : Option String) : Option (List String) :=
  if (mergeMissing nameValue emailValue).length > 0 then
    some (mergeMissing nameValue emailValue)
  else none

/-- On-disk state that `WorktreeManager.remove` affects, for one linked
worktree: the main/dirty flags consulted by the guards, and whether the
working directory, the administrative directory
`<gitdir>/worktrees/<name>`, and the branch ref `refs/heads/<ref>` exist. -/
structure WorktreeState where
  main : Bool
  dirty : Bool
  workdirExists : Bool
  adminDirExists : Bool
  branchRefExists : Bool
  deriving DecidableEq, Repr

namespace GitWorktree

/-- Modelled from the spec: `WorktreeManager.remove` of git-worktree.ts,
which is absent from this source tree. The guards follow spec section 4.2
(main worktree is never removed; a dirty worktree without force is a
deliberate no-op); the deletion effect follows the repository's own tests
(git-worktree.spec.ts lines 301-367), which assert that unforced clean
removal deletes the working directory and the administrative directory
but leaves refs/heads/<ref> in place, while forced removal also deletes
the branch ref. -/
def remove (w : WorktreeState) (force : Bool) : WorktreeState :=
  if w.main then w
  else if w.dirty && !force then w
  else
    { w with
      workdirExists := false
      adminDirExists := false
      branchRefExists := if force then false else w.branchRefExists }

/-- Modelled from the spec: the literal words of spec section 4.2 for
`WorktreeManager.remove`, under which branch deletion is unconditional
once the directory-removal path is taken; written for comparison with
`GitWorktree.remove` and with the repository's tests. -/
def removeSpec (w : WorktreeState) (force : Bool) : WorktreeState :=
  if w.main then w
  else if w.dirty && !force then w
  else
    { w with
      workdirExists := false
      adminDirExists := false
      branchRefExists := false }

end GitWorktree

/-- The clean linked worktree `foo` of the remove tests
(git-worktree.spec.ts lines 240-316): working directory `foo/`,
administrative directory `baseRepo/.git/worktrees/foo`, and branch ref
`baseRepo/.git/refs/heads/foo` all present; `getStatus` mocked to
unmodified. -/
def cleanLinkedWorktree : WorktreeState :=
  { main := false
    dirty := false
    workdirExists := true
    adminDirExists := true
    branchRefExists := true }

/-- The same linked worktree with `getStatus` mocked to modified
(git-worktree.spec.ts lines 318-333). -/
def dirtyLinkedWorktree : WorktreeState :=
  { cleanLinkedWorktree with dirty := true }

/-- Conjunction of the post-state assertions of the four remove tests in
git-worktree.spec.ts (lines 301-367): unforced clean removal leaves the
branch ref defined but deletes the directories; unforced dirty removal
leaves everything defined; forced removal (clean or dirty) deletes the
directories and the branch ref. -/
def passesRemoveTests (rm : WorktreeState → Bool → WorktreeState) : Bool :=
  (let t := rm cleanLinkedWorktree false
   !t.workdirExists && !t.adminDirExists && t.branchRefExists) &&
  (let t := rm dirtyLinkedWorktree false
   t.workdirExists && t.adminDirExists && t.branchRefExists) &&
  (let t := rm cleanLinkedWorktree true
   !t.workdirExists && !t.adminDirExists && !t.branchRefExists) &&
  (let t := rm dirtyLinkedWorktree true
   !t.workdirExists && !t.adminDirExists && !t.branchRefExists)

/-- Claim C1 exactly as stated, for refutation: unforced removal of a
clean non-main linked worktree deletes the working directory, the
administrative directory, and also the branch ref. -/
def c1ClaimProp : Prop :=
  ∀ w : WorktreeState, w.main = false → w.dirty = false →
    (GitWorktree.remove w false).workdirExists = false ∧
    (GitWorktree.remove w false).adminDirExists = false ∧
    (GitWorktree.remove w false).branchRefExists = false

theorem testCharThenY_pair (c x y : Char) :
    testCharThenY c [x, y] = (x == c && ySet.contains y) := by
  simp [testCharThenY]

theorem testYHereChar_pair (c x y : Char) :
    testYHereChar c [x, y] = ((ySet.contains x && x == c) || (ySet.contains y && y == c)) := by
  simp [testYHereChar]

theorem testConflict_pair (x y : Char) :
    testConflict [x, y] =
      ((x == 'D' && y == 'D') || (x == 'A' && y == 'A') ||
       (x != '\n' && y == 'U') || (x == 'U' && y != '\n')) := by
  simp [testConflict]

theorem yContains_and_eq_M (x : Char) : (ySet.contains x && x == 'M') = (x == 'M') := by
  by_cases h : x = 'M'
  · subst h; decide
  · simp [h]

theorem yContains_and_eq_A (x : Char) : (ySet.contains x && x == 'A') = false := by
  by_cases h : x = 'A'
  · subst h; decide
  · simp [h]

theorem yContains_and_eq_D (x : Char) : (ySet.contains x && x == 'D') = (x == 'D') := by
  by_cases h : x = 'D'
  · subst h; decide
  · simp [h]

theorem pairBeqNil (x y : Char) : ([x, y] == ([] : List Char)) = false := rfl

theorem pairBeqPair (x y a b : Char) : ([x, y] == [a, b]) = (x == a && y == b) := by
  simp [BEq.beq, List.beq, Bool.and_true]

theorem processStatusCodeList_pair (x y : Char) :
    processStatusCodeList [x, y] = actualStatusTable x y := by
  simp only [processStatusCodeList, actualStatusTable, pairBeqNil, pairBeqPair,
    testConflict_pair, testCharThenY_pair, testYHereChar_pair,
    yContains_and_eq_M, yContains_and_eq_A, yContains_and_eq_D,
    Bool.or_false, Bool.false_or]
  rfl

example : processStatusCode (some "!!") = (GitStatus.ignored, false) := by decide
example : processStatusCode (some "??") = (GitStatus.absent, false) := by decide
example : processStatusCode (some "UU") = (GitStatus.unmerged, false) := by decide
example : processStatusCode (some "M ") = (GitStatus.modified, false) := by decide
example : processStatusCode (some " M") = (GitStatus.starModified, false) := by decide
example : processStatusCode (some "A ") = (GitStatus.added, false) := by decide
example : processStatusCode (some " A") = (GitStatus.unmodified, true) := by decide
example : processStatusCode (some "AM") = (GitStatus.starModified, false) := by decide
example : processStatusCode (some "D ") = (GitStatus.deleted, false) := by decide
example : processStatusCode (some " D") = (GitStatus.starDeleted, false) := by decide
example : processStatusCode (some "RD") = (GitStatus.starDeleted, false) := by decide
example : processStatusCode (some "") = (GitStatus.unmodified, false) := by decide
example : processStatusCode none = (GitStatus.unmodified, false) := by decide

/-- Claim C2 counterexample: the code " A" (space then A) falls in the
table's `A` in Y row and should map to `*added`, but `processStatusCode`
maps it to unmodified with a diagnostic, so the code does not realize the
precedence table of spec section 4.3. -/
theorem c2_counterexample :
    ¬ (∀ x y : Char, processStatusCode (some (String.mk [x, y])) = specTable43 x y) := by
  intro h
  have h1 := h ' ' 'A'
  revert h1
  decide

/-- Claim C2 (amended): on every two-character code `processStatusCode`
computes `actualStatusTable`: ignored and absent as in the table; DD, AA,
or U in either slot unmerged; `M` in X with Y in space/M/T/D modified; any
remaining code containing `M` is `*modified`; `A` in X with Y in
space/M/T/D added; `*added` is never produced (its regex cannot match);
`D` in X with Y in space/M/T/D deleted; any remaining code containing `D`
is `*deleted`; every remaining code is unmodified with a diagnostic. -/
theorem c2_processStatusCode_table (x y : Char) :
    processStatusCode (some (String.mk [x, y])) = actualStatusTable x y :=
  processStatusCodeList_pair x y

/-- Claim C4 (code bug, evaluated at the failing input): when `ref` is
omitted the destructuring default `ref = 'HEAD'` has already produced a
defined binding by the time `noUpdateHead = ref === undefined` is
evaluated, so `noUpdateHead` defaults to false for every invocation,
whereas the claim (and checkout's own doc comment, reproduced by
`checkoutNoUpdateHeadDoc`) demand true when `ref` is omitted. -/
theorem c4_checkout_noUpdateHead_default :
    checkoutNoUpdateHead { ref := none, noUpdateHead := none } = false ∧
    checkoutNoUpdateHeadDoc { ref := none, noUpdateHead := none } = true ∧
    (∀ r : Option String, checkoutNoUpdateHead { ref := r, noUpdateHead := none } = false) := by
  refine ⟨rfl, rfl, ?_⟩
  intro r
  cases r <;> rfl

theorem filterLengthPosIffAny {α : Type} (p : α → Bool) (l : List α) :
    ((l.filter p).length > 0) ↔ l.any p = true := by
  induction l with
  | nil => simp
  | cons a t ih => by_cases h : p a <;> simp [h, ih]

/-- Claim C5 counterexample: for a directory not under version control
(`statusMatrix` undefined) `getStatus` returns unmodified rather than
undefined, and for a row whose HEAD status differs from its stage status
but not from its workdir status the collapse yields unmodified rather
than modified. -/
theorem c5_counterexample :
    ¬ c5ClaimProp ∧
    getStatus true none none = some GitStatus.unmodified ∧
    getStatus true
      (some [{ filepath := "f", headStatus := 1, workdirStatus := 1, stageStatus := 2 }]) none
      = some GitStatus.unmodified := by
  refine ⟨?_, rfl, rfl⟩
  intro h
  have h1 := h.1 none
  revert h1
  decide

/-- Claim C5 (amended): for a directory `getStatus` collapses to modified
exactly when some matrix row's HEAD status differs from its workdir
status (not its stage status), it returns unmodified rather than
undefined when the status matrix is undefined (not under version
control), and for a non-directory it returns the `matrixEntry` result
unchanged (which is undefined when not under version control). -/
theorem c5_getStatus_result :
    (∀ e, getStatus true none e = some GitStatus.unmodified) ∧
    (∀ (rows : List MatrixRow) (e : Option GitStatus),
      getStatus true (some rows) e =
        some (if rows.any (fun r => r.headStatus != r.workdirStatus) then GitStatus.modified
              else GitStatus.unmodified)) ∧
    (∀ s e, getStatus false s e = e) := by
  refine ⟨fun e => rfl, ?_, fun s e => rfl⟩
  intro rows e
  by_cases h : rows.any (fun r => r.headStatus != r.workdirStatus) = true
  · have hl := (filterLengthPosIffAny (fun r => r.headStatus != r.workdirStatus) rows).mpr h
    simp [getStatus, List.length_map, h, hl]
  · have h' : rows.any (fun r => r.headStatus != r.workdirStatus) = false := by
      simpa using h
    have hl : ¬ ((rows.filter (fun r => r.headStatus != r.workdirStatus)).length > 0) := by
      intro hpos
      exact h ((filterLengthPosIffAny _ rows).mp hpos)
    simp [getStatus, List.length_map, h', hl]

/-- Claim C6 counterexample: with the keyPath present in the local config
file with the empty-string value and present in the global file with a
non-empty value, the truthiness guard `if (localValue)` skips the local
match and the result has global scope, so a local hit does not always win. -/
theorem c6_counterexample :
    ¬ c6ClaimProp ∧
    getConfig true true (some [("user.name", "")]) (some [("user.name", "x")]) "user.name"
      = GitConfig.found ConfigScope.scopeGlobal "x" := by
  refine ⟨?_, by decide⟩
  intro h
  have h1 := h [("user.name", "")] [("user.name", "x")] "user.name" "" (by decide)
  revert h1
  decide

/-- Claim C6 (amended): with both searches enabled, a local hit with a
non-empty value yields scope local with that value; when the local lookup
misses or yields the empty string, a non-empty global hit yields scope
global with that value; when both lookups miss or yield the empty string
the result is the scope-none record (an entry whose value is the empty
string is treated as not found). -/
theorem c6_getConfig_precedence (lf gf : List (String × String)) (key : String) :
    (∀ v, lookupKey lf key = some v → v ≠ "" →
      getConfig true true (some lf) (some gf) key = GitConfig.found ConfigScope.scopeLocal v) ∧
    (∀ w, (lookupKey lf key = none ∨ lookupKey lf key = some "") →
      lookupKey gf key = some w → w ≠ "" →
      getConfig true true (some lf) (some gf) key = GitConfig.found ConfigScope.scopeGlobal w) ∧
    ((lookupKey lf key = none ∨ lookupKey lf key = some "") →
      (lookupKey gf key = none ∨ lookupKey gf key = some "") →
      getConfig true true (some lf) (some gf) key = GitConfig.noneFound) := by
  refine ⟨?_, ?_, ?_⟩
  · intro v hv hne
    simp [getConfig, readConfigValue, hv, jsTruthy, bne_iff_ne, hne]
  · intro w hl hw hne
    rcases hl with hl | hl <;>
      simp [getConfig, readConfigValue, hl, hw, jsTruthy, bne_iff_ne, hne]
  · intro hl hg
    rcases hl with hl | hl <;> rcases hg with hg | hg <;>
      simp [getConfig, readConfigValue, hl, hg, jsTruthy]

theorem lookupKeyDeleteKey (cf : List (String × String)) (key : String) :
    lookupKey (deleteKey cf key) key = none := by
  induction cf with
  | nil => rfl
  | cons a t ih =>
      by_cases h : a.1 == key
      · simp only [deleteKey, List.filter_cons, h, Bool.not_true, Bool.false_eq_true, if_false]
        exact ih
      · simp only [deleteKey, lookupKey, List.filter_cons, List.find?_cons, h, Bool.not_false,
          if_true]
        exact ih

theorem deleteKeyAbsent (cf : List (String × String)) (key : String)
    (h : lookupKey cf key = none) : deleteKey cf key = cf := by
  induction cf with
  | nil => rfl
  | cons a t ih =>
      by_cases ha : a.1 == key
      · simp [lookupKey, List.find?_cons, ha] at h
      · have ht : lookupKey t key = none := by
          simpa [lookupKey, List.find?_cons, ha] using h
        simp [deleteKey, List.filter_cons, ha] at ih ⊢
        exact ih ht

theorem lookupKeySetKey (cf : List (String × String)) (key v : String) :
    lookupKey (setKey cf key v) key = some v := by
  induction cf with
  | nil => simp [setKey, lookupKey]
  | cons a t ih =>
      by_cases h : a.1 == key
      · simp [setKey, lookupKey, h]
      · simpa [setKey, lookupKey, List.find?_cons, h] using ih

/-- Claim C7 counterexample: with local scope requested but the worktree
root unresolvable, the path ternary falls through to the global config
path, and setConfig returns the updated global file contents instead of
null, so the result is not null exactly when the requested scope's path
cannot be resolved. -/
theorem c7_counterexample :
    ¬ c7ClaimProp ∧
    setConfig ConfigScope.scopeLocal none (some "globalconfig") (fun _ => some [])
      "user.name" (some "x") = some "user.name = x\n" := by
  refine ⟨?_, by decide⟩
  intro h
  have h1 := h ConfigScope.scopeLocal none (some "globalconfig") (fun _ => some [])
    "user.name" (some "x") rfl
  revert h1
  decide

/-- Claim C7 (amended): setConfig returns null exactly when the
fallback-resolved config path (the local root-derived path when the scope
is local and the root resolves, otherwise the global config path) is
unavailable or the file at it cannot be parsed; when the scope is local
but the root cannot be resolved, the update silently operates on the
global config file. On a parsed file, an undefined value deletes the
keyPath (a no-op on the file when the key is absent) and any other value
sets or overwrites it, and the serialized contents of the updated file
are returned. -/
theorem c7_setConfig_amended (scope : ConfigScope) (root globalPath : Option String)
    (fileAt : String → Option (List (String × String))) (key : String) :
    (∀ value, resolveConfigPath scope root globalPath = none →
      setConfig scope root globalPath fileAt key value = none) ∧
    (∀ value p, resolveConfigPath scope root globalPath = some p → p ≠ "" →
      fileAt p = none →
      setConfig scope root globalPath fileAt key value = none) ∧
    (∀ p cf, resolveConfigPath scope root globalPath = some p → p ≠ "" →
      fileAt p = some cf →
      setConfig scope root globalPath fileAt key none = some (serializeIni (deleteKey cf key)) ∧
      (∀ v, setConfig scope root globalPath fileAt key (some v) =
        some (serializeIni (setKey cf key v)))) ∧
    (∀ cf, lookupKey (deleteKey cf key) key = none) ∧
    (∀ cf, lookupKey cf key = none → deleteKey cf key = cf) ∧
    (∀ cf v, lookupKey (setKey cf key v) key = some v) ∧
    (root = none → resolveConfigPath ConfigScope.scopeLocal root globalPath = globalPath) := by
  refine ⟨?_, ?_, ?_, fun cf => lookupKeyDeleteKey cf key,
    fun cf h => deleteKeyAbsent cf key h, fun cf v => lookupKeySetKey cf key v, ?_⟩
  · intro value hres
    simp [setConfig, hres, jsTruthy]
  · intro value p hres hp hfile
    simp [setConfig, hres, jsTruthy, bne_iff_ne, hp, hfile]
  · intro p cf hres hp hfile
    constructor
    · simp [setConfig, hres, jsTruthy, bne_iff_ne, hp, hfile]
    · intro v
      simp [setConfig, hres, jsTruthy, bne_iff_ne, hp, hfile]
  · intro hroot
    simp [resolveConfigPath, hroot, jsTruthy]

/-- Claim C8: for a clone whose source root is an existing local
repository, when the target branch (the truthy explicit ref, otherwise
the source's current branch) is defined, non-empty and not among the
repository record's remote branch names, the operation copies the working
directory and checks out the target branch exactly when it differs from
the existing branch; when the target is in the remote list, undefined, or
the empty string, the operation is the network clone. -/
theorem c8_clone_local_branch (current ref : Option String) (remote : List String) :
    (∀ tb : String, cloneTargetBranch true current ref = some tb → tb ≠ "" →
      remote.contains tb = false →
      clone true current ref remote =
        (if some tb = cloneExistingBranch true current then CloneAction.copyOnly
         else CloneAction.copyThenCheckout tb)) ∧
    (∀ tb : String, cloneTargetBranch true current ref = some tb →
      remote.contains tb = true →
      clone true current ref remote = CloneAction.networkClone) ∧
    (cloneTargetBranch true current ref = none →
      clone true current ref remote = CloneAction.networkClone) ∧
    (cloneTargetBranch true current ref = some "" →
      clone true current ref remote = CloneAction.networkClone) := by
  refine ⟨?_, ?_, ?_, ?_⟩
  · intro tb htb hne hrem
    have hrem' : tb ∉ remote := by simpa using hrem
    by_cases he : some tb = cloneExistingBranch true current
    · simp [clone, htb, jsTruthy, bne_iff_ne, hne, hrem', ← he]
    · simp [clone, htb, jsTruthy, bne_iff_ne, hne, hrem', he]
  · intro tb htb hrem
    by_cases htbe : tb = ""
    · simp [clone, htb, jsTruthy, htbe]
    · have hmem : tb ∈ remote := by simpa using hrem
      simp [clone, htb, jsTruthy, bne_iff_ne, htbe, hmem]
  · intro htb
    simp [clone, htb, jsTruthy]
  · intro htb
    simp [clone, htb, jsTruthy]

/-- Claim C8 witness: cloning from a local repository on master with
explicit ref feature absent from the remote list copies and then checks
out feature. -/
theorem c8_clone_local_branch_witness :
    clone true (some "master") (some "feature") ["main"] = CloneAction.copyThenCheckout "feature" := by
  have h := (c8_clone_local_branch (some "master") (some "feature") ["main"]).1 "feature"
    (by decide) (by decide) (by decide)
  exact h.trans (by decide)

/-- Claim C9: for a filepath under version control, `fileStatus` on a
directory applies ignore rules first (ignored for an ignored non-root
directory) and otherwise maps the aggregate branch status clean to
unmodified, uncommitted to modified and unmerged to unmerged; on a file it
returns the entry status found in the `worktreeStatus` entries for the
relative path, defaulting to unmodified when the path is absent from the
changed-entries list. -/
theorem c9_fileStatus_dispatch (r : String) (bs : StatusOutput)
    (atRoot ignoresRel : Bool) (relPath : String) :
    (atRoot = false → ignoresRel = true →
      fileStatus (some r) (some bs) true atRoot ignoresRel relPath = some GitStatus.ignored) ∧
    ((atRoot = true ∨ ignoresRel = false) →
      fileStatus (some r) (some bs) true atRoot ignoresRel relPath =
        some (match bs.status with
          | BranchStatus.clean => GitStatus.unmodified
          | BranchStatus.uncommitted => GitStatus.modified
          | BranchStatus.unmerged => GitStatus.unmerged)) ∧
    (∀ e, bs.entries.find? (fun en => en.1 == relPath) = some e →
      fileStatus (some r) (some bs) false atRoot ignoresRel relPath = some e.2) ∧
    (bs.entries.find? (fun en => en.1 == relPath) = none →
      fileStatus (some r) (some bs) false atRoot ignoresRel relPath
        = some GitStatus.unmodified) := by
  refine ⟨?_, ?_, ?_, ?_⟩
  · intro h1 h2
    simp [fileStatus, h1, h2]
  · intro h
    rcases h with h | h <;> simp [fileStatus, h]
  · intro e he
    simp [fileStatus, he]
  · intro he
    simp [fileStatus, he]

/-- Claim C9 witness: a changed file entry is reported with its recorded
status. -/
theorem c9_fileStatus_dispatch_witness :
    fileStatus (some "repo")
      (some { ref := "main", root := "repo", status := BranchStatus.uncommitted,
              bare := false, entries := [("f.txt", GitStatus.starModified)] })
      false false false "f.txt" = some GitStatus.starModified :=
  (c9_fileStatus_dispatch "repo"
    { ref := "main", root := "repo", status := BranchStatus.uncommitted,
      bare := false, entries := [("f.txt", GitStatus.starModified)] }
    false false "f.txt").2.2.1 ("f.txt", GitStatus.starModified) (by decide)

/-- Claim C10: whenever user.name or user.email is unset or empty, the
underlying merge is invoked with the placeholder identity for the missing
field regardless of the dryRun flag (which is passed through unchanged),
and the missingConfigs field lists exactly the missing keys and is omitted
when neither key is missing. -/
theorem c10_merge_missing_configs (nameValue emailValue : Option String)
    (base compare : String) (dryRun : Bool) :
    (jsTruthy nameValue = false →
      (mergeUnderlyingCall nameValue emailValue base compare dryRun).authorName = "Mr. Test") ∧
    (jsTruthy emailValue = false →
      (mergeUnderlyingCall nameValue emailValue base compare dryRun).authorEmail
        = "mrtest@example.com") ∧
    ((mergeUnderlyingCall nameValue emailValue base compare dryRun).dryRun = dryRun) ∧
    (jsTruthy nameValue = true → jsTruthy emailValue = true →
      mergeMissingConfigs nameValue emailValue = none) ∧
    (jsTruthy nameValue = false → jsTruthy emailValue = true →
      mergeMissingConfigs nameValue emailValue = some ["user.name"]) ∧
    (jsTruthy nameValue = true → jsTruthy emailValue = false →
      mergeMissingConfigs nameValue emailValue = some ["user.email"]) ∧
    (jsTruthy nameValue = false → jsTruthy emailValue = false →
      mergeMissingConfigs nameValue emailValue = some ["user.name", "user.email"]) := by
  refine ⟨?_, ?_, rfl, ?_, ?_, ?_, ?_⟩
  · intro h
    simp [mergeUnderlyingCall, h]
  · intro h
    simp [mergeUnderlyingCall, h]
  · intro h1 h2
    simp [mergeMissingConfigs, mergeMissing, List.filter_cons, h1, h2]
  · intro h1 h2
    simp [mergeMissingConfigs, mergeMissing, List.filter_cons, h1, h2]
  · intro h1 h2
    simp [mergeMissingConfigs, mergeMissing, List.filter_cons, h1, h2]
  · intro h1 h2
    simp [mergeMissingConfigs, mergeMissing, List.filter_cons, h1, h2]

/-- Claim C10 witness: with user.name missing and user.email configured, a
non-dry-run merge is invoked under the placeholder name and missingConfigs
is exactly the missing key. -/
theorem c10_merge_missing_configs_witness :
    (mergeUnderlyingCall none (some "a@b.c") "main" "feature" false).authorName = "Mr. Test" ∧
    mergeMissingConfigs none (some "a@b.c") = some ["user.name"] :=
  ⟨(c10_merge_missing_configs none (some "a@b.c") "main" "feature" false).1 rfl,
   (c10_merge_missing_configs none (some "a@b.c") "main" "feature" false).2.2.2.2.1 rfl
     (by decide)⟩

theorem remove_satisfies_worktree_tests : passesRemoveTests GitWorktree.remove = true := by
  decide

/-- Claim C1 counterexample: on the clean linked worktree of the remove
tests, unforced removal leaves the branch ref in existence (the test at
git-worktree.spec.ts line 315 asserts it is still defined), so removal
does not delete refs/heads/<ref> on the unforced path; moreover the
spec-literal removal semantics, which deletes the branch unconditionally,
fails the embedded test suite. -/
theorem c1_counterexample :
    ¬ c1ClaimProp ∧ passesRemoveTests GitWorktree.removeSpec = false := by
  refine ⟨?_, by decide⟩
  intro h
  have h1 := (h cleanLinkedWorktree rfl rfl).2.2
  revert h1
  decide

/-- Claim C1 (amended): unforced removal of a clean non-main linked
worktree deletes the working directory and the administrative directory
but leaves the branch ref refs/heads/<ref> intact; only forced removal
also deletes the branch ref. -/
theorem c1_remove_clean_keeps_branch (w : WorktreeState)
    (hmain : w.main = false) (hdirty : w.dirty = false) :
    GitWorktree.remove w false =
      { w with workdirExists := false, adminDirExists := false } := by
  simp [GitWorktree.remove, hmain, hdirty]

/-- Claim C1 witness: the amended statement evaluated on the clean linked
worktree of the tests. -/
theorem c1_remove_clean_keeps_branch_witness :
    GitWorktree.remove cleanLinkedWorktree false =
      { cleanLinkedWorktree with workdirExists := false, adminDirExists := false } :=
  c1_remove_clean_keeps_branch cleanLinkedWorktree rfl rfl

/-- Claim C3: unforced removal of a dirty non-main linked worktree is a
total no-op: the working directory, the administrative directory and the
branch ref all remain exactly as they were, and the operation completes
without error. -/
theorem c3_remove_dirty_no_force (w : WorktreeState)
    (hmain : w.main = false) (hdirty : w.dirty = true) :
    GitWorktree.remove w false = w := by
  simp [GitWorktree.remove, hmain, hdirty]

/-- Claim C3 witness: the statement evaluated on the dirty linked worktree
of the tests. -/
theorem c3_remove_dirty_no_force_witness :
    GitWorktree.remove dirtyLinkedWorktree false = dirtyLinkedWorktree :=
  c3_remove_dirty_no_force dirtyLinkedWorktree rfl rfl

/-- Claim C6 witness: a non-empty local hit wins over an empty global
file. -/
theorem c6_getConfig_precedence_witness :
    getConfig true true (some [("user.name", "Alice")]) (some []) "user.name"
      = GitConfig.found ConfigScope.scopeLocal "Alice" :=
  (c6_getConfig_precedence [("user.name", "Alice")] [] "user.name").1 "Alice"
    (by decide) (by decide)

/-- Claim C7 witness: deleting the only key of a resolvable, parsable
local config file returns the serialization of the now-empty file. -/
theorem c7_setConfig_amended_witness :
    setConfig ConfigScope.scopeLocal (some "repo") none
      (fun _ => some [("user.name", "A")]) "user.name" none = some "" := by
  have h := ((c7_setConfig_amended ConfigScope.scopeLocal (some "repo") none
    (fun _ => some [("user.name", "A")]) "user.name").2.2.1 "repo/.git/config"
    [("user.name", "A")] (by decide) (by decide) rfl).1
  exact h.trans (by decide)
